import Mathlib

set_option autoImplicit false

/-!
Verification development for `dm-data-format-permutator` (`src/main.py`).

The program is embedded shallowly over `List Char` strings:

* `detect_data_type` embeds the function of the same name (lines 63-89),
  with the Python regexes embedded as terms of a small regex language `RE`
  evaluated by a backtracking prefix matcher `mtch` (Python `re.match`
  semantics: the pattern has to match some prefix of the string).
* `permute_data_format` embeds the fabricator (lines 26-61).  External
  library behaviour (Faker, dateutil, the `float` builtin) is abstracted by
  an oracle structure `FakeEnv`; Python exceptions are made explicit with
  `Except PyError`.
* `run_pipeline` / `processRow` embed the row loop of `main` (lines 103-131);
  the rows written to the output file are collected in `RunResult.output`
  and `sys.exit` codes in `RunResult.exitCode`.
* `strReplace` embeds Python `str.replace` (replace every non-overlapping
  occurrence, scanning left to right) as used on line 100 for the default
  output path.
-/

/-- Whitespace class used by Python `str.strip()` and by the regex class
`\s` (restricted to the ASCII whitespace characters, which is what the
strings handled here contain). -/
def pyWS (c : Char) : Bool :=
  c = ' ' || c = '\t' || c = '\n' || c = '\r' || c = '\x0b' || c = '\x0c'

/-- Remove leading whitespace (left half of Python `str.strip()`). -/
def trimLeft (s : List Char) : List Char :=
  List.dropWhile pyWS s

/-- Remove trailing whitespace (right half of Python `str.strip()`). -/
def trimRight (s : List Char) : List Char :=
  (List.dropWhile pyWS s.reverse).reverse

/-- Python `str.strip()`: remove leading and trailing whitespace. -/
def pyStrip (s : List Char) : List Char :=
  trimRight (trimLeft s)

/-- Regular expressions, as needed for the four patterns of
`detect_data_type`: character classes, concatenation, alternation and
Kleene star ( `?` and bounded repetition are derived forms). -/
inductive RE where
  | eps : RE
  | cls : (Char → Bool) → RE
  | seq : RE → RE → RE
  | alt : RE → RE → RE
  | star : RE → RE

/-- Size of a regex term, used to pick a sufficient amount of fuel for the
matcher. -/
def RE.size : RE → Nat
  | RE.eps => 1
  | RE.cls _ => 1
  | RE.seq a b => a.size + b.size + 1
  | RE.alt a b => a.size + b.size + 1
  | RE.star a => a.size + 1

/-- A single literal character. -/
def chrC (c : Char) : RE := RE.cls (fun x => x = c)

/-- Derived form: `r?` (match `r` or nothing). -/
def optR (r : RE) : RE := RE.alt r RE.eps

/-- Derived form: `r{n}` (exactly `n` copies of `r`). -/
def repN : Nat → RE → RE
  | 0, _ => RE.eps
  | n + 1, r => RE.seq r (repN n r)

/-- Backtracking matcher in continuation style: `mtch f r s k` is true when
some prefix `p` of `s` is matched by `r` and the continuation `k` accepts
the corresponding remainder of `s`.  The fuel `f` bounds the recursion
depth; every star body in the patterns below consumes at least one
character, so `(s.length + 1) * (r.size + 1)` fuel is always enough. -/
def mtch : Nat → RE → List Char → (List Char → Bool) → Bool
  | 0, _, _, _ => false
  | _ + 1, RE.eps, s, k => k s
  | _ + 1, RE.cls _, [], _ => false
  | _ + 1, RE.cls p, c :: rest, k => p c && k rest
  | f + 1, RE.seq a b, s, k => mtch f a s (fun s2 => mtch f b s2 k)
  | f + 1, RE.alt a b, s, k => mtch f a s k || mtch f b s k
  | f + 1, RE.star a, s, k => k s || mtch f a s (fun s2 => mtch f (RE.star a) s2 k)

/-- Python `re.match(r, s)` viewed as a boolean: does `r` match some prefix
of `s`?  (Anchored at the start only; trailing characters are ignored.) -/
def reMatch (r : RE) (s : List Char) : Bool :=
  mtch ((s.length + 1) * (r.size + 1)) r s (fun _ => true)

/-- The class `\d`. -/
def digitC : RE := RE.cls Char.isDigit

/-- The class `\s`. -/
def spaceC : RE := RE.cls pyWS

/-- The class `[-.\s]` of the phone pattern. -/
def sepC : RE := RE.cls (fun c => c = '-' || c = '.' || pyWS c)

/-- Line 80: `\d{4}-\d{2}-\d{2}`. -/
def dateDashRE : RE :=
  RE.seq (repN 4 digitC) (RE.seq (chrC '-') (RE.seq (repN 2 digitC)
    (RE.seq (chrC '-') (repN 2 digitC))))

/-- Line 82: `\d{2}/\d{2}/\d{4}`. -/
def dateSlashRE : RE :=
  RE.seq (repN 2 digitC) (RE.seq (chrC '/') (RE.seq (repN 2 digitC)
    (RE.seq (chrC '/') (repN 4 digitC))))

/-- Line 84: `\$\d+(\,\d{3})*(\.\d{2})?`. -/
def currencyRE : RE :=
  RE.seq (chrC '$') (RE.seq (RE.seq digitC (RE.star digitC))
    (RE.seq (RE.star (RE.seq (chrC ',') (repN 3 digitC)))
      (optR (RE.seq (chrC '.') (repN 2 digitC)))))

/-- Line 86: `(\+\d{1,3})?\s?\(?\d{3}\)?[-.\s]?\d{3}[-.\s]?\d{4}`, with
`\d{1,3}` expanded to one mandatory digit followed by up to two optional
ones. -/
def phoneRE : RE :=
  RE.seq (optR (RE.seq (chrC '+') (RE.seq digitC (optR (RE.seq digitC (optR digitC))))))
    (RE.seq (optR spaceC) (RE.seq (optR (chrC '(')) (RE.seq (repN 3 digitC)
      (RE.seq (optR (chrC ')')) (RE.seq (optR sepC) (RE.seq (repN 3 digitC)
        (RE.seq (optR sepC) (repN 4 digitC))))))))

/-- A Python value handed to `detect_data_type`: either a string or some
non-string value (the function only distinguishes these two cases). -/
inductive PyVal where
  | str : List Char → PyVal
  | nonstr : PyVal

/-- Lines 63-89 of `src/main.py`: strip the value if it is a string, return
`unknown` for non-strings and for values that are empty after stripping,
and otherwise run the four `re.match` prefix tests in order,
first match wins.  The function is total: it never raises. -/
def detect_data_type : PyVal → String
  | PyVal.nonstr => "unknown"
  | PyVal.str s =>
    if (pyStrip s).isEmpty then "unknown"
    else if reMatch dateDashRE (pyStrip s) then "date"
    else if reMatch dateSlashRE (pyStrip s) then "date"
    else if reMatch currencyRE (pyStrip s) then "currency"
    else if reMatch phoneRE (pyStrip s) then "telephone"
    else "unknown"

/-- Boolean test that `pat` is a prefix of `s` (character by character,
as the scan of Python `str.replace` performs at each position). -/
def startsWith : List Char → List Char → Bool
  | [], _ => true
  | _ :: _, [] => false
  | p :: ps, c :: cs => p == c && startsWith ps cs

/-- Boolean test that `pat` occurs as a contiguous subsequence of the
second argument (used to phrase hypotheses such as "the path contains no
`.csv` substring"). -/
def containsSeq (pat : List Char) : List Char → Bool
  | [] => startsWith pat []
  | c :: rest => startsWith pat (c :: rest) || containsSeq pat rest

/-- Worker for `strReplace`, scanning left to right and replacing every
non-overlapping occurrence of `old`.  The fuel only bounds the recursion;
each step consumes at least one character of the scanned string, so
`s.length` fuel is always enough and the `0` fallback is never reached
from `strReplace`. -/
def strReplaceAux : Nat → List Char → List Char → List Char → List Char
  | _, [], _, _ => []
  | 0, s, _, _ => s
  | fuel + 1, c :: rest, old, new =>
    if startsWith old (c :: rest) && !old.isEmpty then
      new ++ strReplaceAux fuel (List.drop old.length (c :: rest)) old new
    else
      c :: strReplaceAux fuel rest old new

/-- Python `str.replace(old, new)` for a non-empty `old`: replace every
non-overlapping occurrence of `old`, scanning left to right. -/
def strReplace (s old new : List Char) : List Char :=
  strReplaceAux s.length s old new

/-- Line 100 of `src/main.py`: `csv_file.replace(".csv", "_masked.csv")`,
the default output path. -/
def defaultOutput (csv_file : List Char) : List Char :=
  strReplace csv_file ( ".csv".toList) ( "_masked.csv".toList)

/-- Line 100: `args.output_file or csv_file.replace(...)`.  Python `or`
takes the default both when no `-o` option was given (`None`) and when it
was given as the empty string (falsy). -/
def resolvedOutput (output_file : Option (List Char)) (csv_file : List Char) : List Char :=
  match output_file with
  | none => defaultOutput csv_file
  | some s => if s.isEmpty then defaultOutput csv_file else s

/-- Line 114: `header.index(column_name)` — the index of the first cell
equal to `column_name`, or `none` where Python raises `ValueError`. -/
def indexOfCell (name : List Char) : List (List Char) → Option Nat
  | [] => none
  | c :: rest => if c = name then some 0 else (indexOfCell name rest).map (fun i => i + 1)

/-- Python exceptions, to the granularity this program distinguishes them:
`valueError` (raised by `float` and by the date parser), `attrError`
(raised by the `Faker` constructor on an unsupported locale), and a
catch-all for anything else a library call could raise. -/
inductive PyError where
  | valueError : PyError
  | attrError : PyError
  | otherError : PyError

/-- Oracle for the external libraries used by `permute_data_format`:
Faker and dateutil are not part of this repository, so their outcomes are
abstracted as functions.  `fakerOk` tells whether `Faker(locale)`
constructs successfully (real Faker raises `AttributeError` on an
unsupported locale); `dateParseOk` tells whether `dateutil.parser.parse`
succeeds (it raises `ValueError` otherwise); `floatOk` tells whether the
`float` builtin accepts a string; the remaining fields are the values the
Faker generators return (`pystr n` abstracts
`fake.pystr(min_chars=n, max_chars=n)`). -/
structure FakeEnv where
  fakerOk : String → Bool
  dateParseOk : List Char → Bool
  fakeDate : List Char
  randomNumber : Nat → Nat
  phoneNumber : List Char
  pystr : Nat → List Char
  floatOk : List Char → Bool

/-- Line 53: the f-string `f"${a}.{b}"` with `a`, `b` the two random
numbers, rendered in decimal with no padding. -/
def currencyFormat (a b : Nat) : List Char :=
  '$' :: (toString a).toList ++ '.' :: (toString b).toList

/-- Lines 40-58 of `src/main.py`: the body of the `try` block of
`permute_data_format`, with the inner `try/except ValueError` around the
date parse already applied (a failed parse is logged and the original
value returned).  An `Except.error` is an exception that escapes the body
and reaches the outer `except Exception` handler — here the `ValueError`
of a failed `float` conversion on the currency branch. -/
def permute_try (env : FakeEnv) (data : List Char) (data_type : String) :
    Except PyError (List Char) :=
  if data_type = "date" then
    if env.dateParseOk data then Except.ok env.fakeDate else Except.ok data
  else if data_type = "currency" then
    if env.floatOk (strReplace (strReplace data ( "$".toList) []) ( ",".toList) []) then
      Except.ok (currencyFormat (env.randomNumber 3) (env.randomNumber 2))
    else
      Except.error PyError.valueError
  else if data_type = "telephone" then
    Except.ok env.phoneNumber
  else
    Except.ok (env.pystr data.length)

/-- Lines 26-61 of `src/main.py`.  `fake = Faker(locale)` on line 38 runs
before the `try` block, so a failing constructor raises out of the
function; every exception raised inside the `try` block is caught by the
`except Exception` handler on line 59, which logs and returns the original
value. -/
def permute_data_format (env : FakeEnv) (data : List Char) (data_type : String)
    (locale : String) : Except PyError (List Char) :=
  if env.fakerOk locale then
    match permute_try env data data_type with
    | Except.ok v => Except.ok v
    | Except.error _ => Except.ok data
  else
    Except.error PyError.attrError

/-- Lines 119-131 of `src/main.py`: the work done for one data row, and
the row that is written for it.  `row[column_index]` out of range raises
`IndexError`, whose handler writes the row unchanged; any exception from
the fabricator is caught by the `except Exception` handler, which also
writes the (still unmutated) row; otherwise the target cell is overwritten
with the fabricated value before the row is written. -/
def processRow (env : FakeEnv) (idx : Nat) (locale : String)
    (row : List (List Char)) : List (List Char) :=
  match row.get? idx with
  | none => row
  | some original =>
    match permute_data_format env original (detect_data_type (PyVal.str original)) locale with
    | Except.ok masked => row.set idx masked
    | Except.error _ => row

/-- Outcome of a run of `main`: the rows written to the output file, in
order, and the process exit code (0 for success, 1 for the fatal paths). -/
structure RunResult where
  output : List (List (List Char))
  exitCode : Nat

/-- Lines 103-131 of `src/main.py`: the row pipeline, over an input file
already parsed into rows of cells.  An empty file makes `next(reader)`
raise `StopIteration`, which the top-level `except Exception` handler
turns into exit code 1 with nothing written; a header without the target
column is written, then `sys.exit(1)` runs; otherwise every data row is
processed in order and the run succeeds. -/
def run_pipeline (env : FakeEnv) (input : List (List (List Char)))
    (column_name : List Char) (locale : String) : RunResult :=
  match input with
  | [] => { output := [], exitCode := 1 }
  | header :: rows =>
    match indexOfCell column_name header with
    | none => { output := [header], exitCode := 1 }
    | some idx => { output := header :: rows.map (processRow env idx locale), exitCode := 0 }

/-- Oracle in which every external call succeeds, with fixed generator
outputs; used to instantiate theorems at concrete inputs. -/
def envAllOk : FakeEnv where
  fakerOk := fun _ => true
  dateParseOk := fun _ => true
  fakeDate := "2021-07-15".toList
  randomNumber := fun _ => 7
  phoneNumber := "555-000-1111".toList
  pystr := fun n => List.replicate n 'a'
  floatOk := fun _ => true

/-- Oracle in which the `Faker` constructor fails for every locale (as the
real library does on an unsupported locale string), everything else
succeeding. -/
def envNoFaker : FakeEnv where
  fakerOk := fun _ => false
  dateParseOk := fun _ => true
  fakeDate := "2021-07-15".toList
  randomNumber := fun _ => 7
  phoneNumber := "555-000-1111".toList
  pystr := fun n => List.replicate n 'a'
  floatOk := fun _ => true

/-- Oracle in which the Faker constructor succeeds but both the date parser
and the `float` builtin reject every string; the fabricator then falls back
to the original value on the date and currency branches. -/
def envNoFloat : FakeEnv where
  fakerOk := fun _ => true
  dateParseOk := fun _ => false
  fakeDate := "2021-07-15".toList
  randomNumber := fun _ => 7
  phoneNumber := "555-000-1111".toList
  pystr := fun n => List.replicate n 'a'
  floatOk := fun _ => false

theorem dropWhile_head_false (p : Char → Bool) :
    ∀ (l : List Char) (c : Char) (rest : List Char),
      List.dropWhile p l = c :: rest → p c = false := by
  intro l
  induction l with
  | nil => intro c rest h; simp [List.dropWhile] at h
  | cons a t ih =>
    intro c rest h
    by_cases hp : p a
    · rw [List.dropWhile_cons_of_pos hp] at h
      exact ih c rest h
    · rw [List.dropWhile_cons_of_neg hp] at h
      cases h
      simpa using hp

theorem dropWhile_idem (p : Char → Bool) (l : List Char) :
    List.dropWhile p (List.dropWhile p l) = List.dropWhile p l := by
  cases h : List.dropWhile p l with
  | nil => simp
  | cons c rest =>
    have hc : p c = false := dropWhile_head_false p l c rest h
    rw [List.dropWhile_cons_of_neg (by simp [hc])]

theorem head?_append_left {α : Type} (xs ys : List α) (h : xs ≠ []) :
    (xs ++ ys).head? = xs.head? := by
  cases xs with
  | nil => exact absurd rfl h
  | cons a t => rfl

theorem dropWhile_suffix_decomp (p : Char → Bool) :
    ∀ l : List Char, ∃ pre, l = pre ++ List.dropWhile p l := by
  intro l
  induction l with
  | nil => exact ⟨[], rfl⟩
  | cons a t ih =>
    by_cases hp : p a
    · obtain ⟨pre, hpre⟩ := ih
      refine ⟨a :: pre, ?_⟩
      rw [List.dropWhile_cons_of_pos hp, List.cons_append, ← hpre]
    · exact ⟨[], by rw [List.dropWhile_cons_of_neg hp]; rfl⟩

theorem trimRight_head? (l : List Char) :
    trimRight l = [] ∨ (trimRight l).head? = l.head? := by
  unfold trimRight
  cases hw : List.dropWhile pyWS l.reverse with
  | nil => left; rfl
  | cons d ws =>
    right
    obtain ⟨pre, hpre⟩ := dropWhile_suffix_decomp pyWS l.reverse
    rw [hw] at hpre
    have hl : l = (d :: ws).reverse ++ pre.reverse := by
      have h2 := congrArg List.reverse hpre
      rw [List.reverse_reverse, List.reverse_append] at h2
      exact h2
    rw [hl]
    exact (head?_append_left _ _ (by simp)).symm

theorem trimLeft_trimRight_trimLeft (s : List Char) :
    trimLeft (trimRight (trimLeft s)) = trimRight (trimLeft s) := by
  cases h : trimRight (trimLeft s) with
  | nil => simp [trimLeft]
  | cons c rest =>
    have hh : (trimRight (trimLeft s)).head? = (trimLeft s).head? :=
      (trimRight_head? (trimLeft s)).resolve_left (by rw [h]; simp)
    have ht : (trimLeft s).head? = some c := by rw [← hh, h]; rfl
    have hc : pyWS c = false := by
      cases ht2 : trimLeft s with
      | nil => rw [ht2] at ht; cases ht
      | cons c2 t2 =>
        rw [ht2] at ht
        have : c2 = c := by injection ht
        subst this
        exact dropWhile_head_false pyWS s c2 t2 ht2
    unfold trimLeft
    rw [List.dropWhile_cons_of_neg (by simp [hc])]

theorem trimRight_idem (l : List Char) : trimRight (trimRight l) = trimRight l := by
  unfold trimRight
  rw [List.reverse_reverse, dropWhile_idem]

theorem pyStrip_idem (s : List Char) : pyStrip (pyStrip s) = pyStrip s := by
  unfold pyStrip
  rw [trimLeft_trimRight_trimLeft, trimRight_idem]

theorem mtch_mono :
    ∀ (f f2 : Nat) (r : RE) (s : List Char) (k k2 : List Char → Bool),
      f ≤ f2 → (∀ u, k u = true → k2 u = true) →
      mtch f r s k = true → mtch f2 r s k2 = true := by
  intro f
  induction f with
  | zero => intro f2 r s k k2 _ _ h; simp [mtch] at h
  | succ f ih =>
    intro f2 r s k k2 hle hk h
    cases f2 with
    | zero => omega
    | succ f3 =>
      have hle3 : f ≤ f3 := Nat.succ_le_succ_iff.mp hle
      cases r with
      | eps => exact hk s h
      | cls p =>
        cases s with
        | nil => simp [mtch] at h
        | cons c rest =>
          simp only [mtch, Bool.and_eq_true] at h ⊢
          exact ⟨h.1, hk rest h.2⟩
      | seq a b =>
        simp only [mtch] at h ⊢
        exact ih f3 a s _ _ hle3 (fun u hu => ih f3 b u k k2 hle3 hk hu) h
      | alt a b =>
        simp only [mtch, Bool.or_eq_true] at h ⊢
        cases h with
        | inl h => exact Or.inl (ih f3 a s k k2 hle3 hk h)
        | inr h => exact Or.inr (ih f3 b s k k2 hle3 hk h)
      | star a =>
        simp only [mtch, Bool.or_eq_true] at h ⊢
        cases h with
        | inl h => exact Or.inl (hk s h)
        | inr h =>
          exact Or.inr (ih f3 a s _ _ hle3
            (fun u hu => ih f3 (RE.star a) u k k2 hle3 hk hu) h)

theorem mtch_append :
    ∀ (f : Nat) (r : RE) (s t : List Char) (k k2 : List Char → Bool),
      (∀ u, k u = true → k2 (u ++ t) = true) →
      mtch f r s k = true → mtch f r (s ++ t) k2 = true := by
  intro f
  induction f with
  | zero => intro r s t k k2 _ h; simp [mtch] at h
  | succ f ih =>
    intro r s t k k2 hk h
    cases r with
    | eps => exact hk s h
    | cls p =>
      cases s with
      | nil => simp [mtch] at h
      | cons c rest =>
        simp only [mtch, Bool.and_eq_true] at h
        simp only [List.cons_append, mtch, Bool.and_eq_true]
        exact ⟨h.1, hk rest h.2⟩
    | seq a b =>
      simp only [mtch] at h ⊢
      exact ih a s t _ _ (fun u hu => ih b u t k k2 hk hu) h
    | alt a b =>
      simp only [mtch, Bool.or_eq_true] at h ⊢
      cases h with
      | inl h => exact Or.inl (ih a s t k k2 hk h)
      | inr h => exact Or.inr (ih b s t k k2 hk h)
    | star a =>
      simp only [mtch, Bool.or_eq_true] at h ⊢
      cases h with
      | inl h => exact Or.inl (hk s h)
      | inr h =>
        exact Or.inr (ih a s t _ _
          (fun u hu => ih (RE.star a) u t k k2 hk hu) h)

theorem reMatch_append (r : RE) (s t : List Char) :
    reMatch r s = true → reMatch r (s ++ t) = true := by
  intro h
  unfold reMatch at h ⊢
  have hle : (s.length + 1) * (r.size + 1) ≤ ((s ++ t).length + 1) * (r.size + 1) := by
    have : s.length ≤ (s ++ t).length := by simp
    exact Nat.mul_le_mul_right _ (by omega)
  exact mtch_append _ r s t _ _ (fun u _ => rfl)
    (mtch_mono _ _ r s _ _ hle (fun u hu => hu) h)

theorem strReplaceAux_nil (fuel : Nat) (old new : List Char) :
    strReplaceAux fuel [] old new = [] := by
  cases fuel <;> rfl

theorem strReplaceAux_eq_self :
    ∀ (fuel : Nat) (s old new : List Char),
      containsSeq old s = false → strReplaceAux fuel s old new = s := by
  intro fuel
  induction fuel with
  | zero => intro s old new _; cases s <;> rfl
  | succ f ih =>
    intro s old new h
    cases s with
    | nil => rfl
    | cons c rest =>
      simp only [containsSeq, Bool.or_eq_false_iff] at h
      simp only [strReplaceAux, h.1, Bool.false_and, if_false]
      exact congrArg (c :: ·) (ih rest old new h.2)

theorem strReplace_eq_self (s old new : List Char) (h : containsSeq old s = false) :
    strReplace s old new = s :=
  strReplaceAux_eq_self s.length s old new h

theorem startsWith_nil (s : List Char) : startsWith [] s = true := rfl

theorem startsWith_cons (p c : Char) (ps cs : List Char) :
    startsWith (p :: ps) (c :: cs) = (p == c && startsWith ps cs) := rfl

theorem startsWith_csv_boundary :
    ∀ (a : Char) (u2 : List Char),
      startsWith ['.', 'c', 's', 'v'] (a :: (u2 ++ ['.', 'c', 's', 'v'])) = true →
      startsWith ['.', 'c', 's', 'v'] (a :: u2) = true := by
  intro a u2 h
  match u2 with
  | [] =>
    exfalso
    rw [List.nil_append, startsWith_cons] at h
    have hx : startsWith ['c', 's', 'v'] ['.', 'c', 's', 'v'] = false := by decide
    rw [hx, Bool.and_false] at h
    exact absurd h (by decide)
  | [b] =>
    exfalso
    rw [List.cons_append, List.nil_append, startsWith_cons, startsWith_cons] at h
    have hx : startsWith ['s', 'v'] ['.', 'c', 's', 'v'] = false := by decide
    rw [hx, Bool.and_false, Bool.and_false] at h
    exact absurd h (by decide)
  | [b, d] =>
    exfalso
    rw [List.cons_append, List.cons_append, List.nil_append, startsWith_cons,
      startsWith_cons, startsWith_cons] at h
    have hx : startsWith ['v'] ['.', 'c', 's', 'v'] = false := by decide
    rw [hx, Bool.and_false, Bool.and_false, Bool.and_false] at h
    exact absurd h (by decide)
  | b :: d :: e :: u3 =>
    simp only [List.cons_append, startsWith_cons, startsWith_nil, Bool.and_true,
      Bool.and_eq_true] at h ⊢
    exact ⟨h.1, h.2.1, h.2.2.1, h.2.2.2⟩

theorem strReplaceAux_suffix_csv :
    ∀ (fuel : Nat) (u new : List Char),
      u.length + 4 ≤ fuel → containsSeq ['.', 'c', 's', 'v'] u = false →
      strReplaceAux fuel (u ++ ['.', 'c', 's', 'v']) ['.', 'c', 's', 'v'] new = u ++ new := by
  intro fuel
  induction fuel with
  | zero => intro u new hlen _; omega
  | succ f ih =>
    intro u new hlen h
    cases u with
    | nil =>
      rw [List.nil_append, List.nil_append]
      simp only [strReplaceAux]
      have hcond : (startsWith ['.', 'c', 's', 'v'] ['.', 'c', 's', 'v'] &&
          !List.isEmpty ['.', 'c', 's', 'v']) = true := by decide
      rw [hcond, if_pos rfl]
      have hdrop : List.drop (List.length ['.', 'c', 's', 'v']) ['.', 'c', 's', 'v'] =
          ([] : List Char) := by decide
      rw [hdrop, strReplaceAux_nil, List.append_nil]
    | cons a u2 =>
      simp only [containsSeq, Bool.or_eq_false_iff] at h
      have hsw : startsWith ['.', 'c', 's', 'v'] (a :: (u2 ++ ['.', 'c', 's', 'v'])) = false := by
        cases hx : startsWith ['.', 'c', 's', 'v'] (a :: (u2 ++ ['.', 'c', 's', 'v'])) with
        | false => rfl
        | true =>
          exfalso
          have h2 := startsWith_csv_boundary a u2 hx
          rw [h.1] at h2
          exact absurd h2 (by decide)
      rw [List.cons_append]
      simp only [strReplaceAux]
      rw [hsw, Bool.false_and, if_neg (by decide)]
      have hlen2 : u2.length + 4 ≤ f := by
        simp only [List.length_cons] at hlen
        omega
      rw [ih u2 new hlen2 h.2, List.cons_append]

theorem strReplace_suffix_csv (u new : List Char)
    (h : containsSeq ['.', 'c', 's', 'v'] u = false) :
    strReplace (u ++ ['.', 'c', 's', 'v']) ['.', 'c', 's', 'v'] new = u ++ new := by
  unfold strReplace
  exact strReplaceAux_suffix_csv _ u new (by simp) h

theorem indexOfCell_eq_none (name : List Char) :
    ∀ l : List (List Char), name ∉ l → indexOfCell name l = none := by
  intro l
  induction l with
  | nil => intro _; rfl
  | cons c rest ih =>
    intro h
    have hc : ¬(c = name) := fun hc => h (hc ▸ List.mem_cons_self c rest)
    have hr : name ∉ rest := fun hr => h (List.mem_cons_of_mem c hr)
    simp only [indexOfCell, if_neg hc, ih hr, Option.map_none']

theorem listSet_get? {α : Type} :
    ∀ (l : List α) (i j : Nat) (a : α), i ≠ j → (l.set i a).get? j = l.get? j := by
  intro l
  induction l with
  | nil => intro i j a _; simp [List.set]
  | cons b t ih =>
    intro i j a hij
    cases i with
    | zero =>
      cases j with
      | zero => exact absurd rfl hij
      | succ j2 => simp [List.set, List.get?]
    | succ i2 =>
      cases j with
      | zero => simp [List.set, List.get?]
      | succ j2 =>
        simp only [List.set, List.get?]
        exact ih i2 j2 a (fun hh => hij (by rw [hh]))

/-- C9: classification is invariant under surrounding whitespace — for every
string `s`, `detect_data_type` gives the same tag on `s` and on the stripped
`s`, because the detector strips the value before running every pattern
test. -/
theorem C9_detect_strip_invariant (s : List Char) :
    detect_data_type (PyVal.str s) = detect_data_type (PyVal.str (pyStrip s)) := by
  simp only [detect_data_type, pyStrip_idem]

/-- C10: for an input path with no `.csv` substring at all, the default
output path (no explicit `-o`) equals the input path itself, so the path
opened for truncating write is the very path opened for reading. -/
theorem C10_no_csv_same_path (p : List Char)
    (h : containsSeq ( ".csv".toList) p = false) :
    resolvedOutput none p = p := by
  unfold resolvedOutput defaultOutput
  exact strReplace_eq_self p _ _ h

/-- Witness for C10 at the concrete path `data.txt`. -/
theorem C10_no_csv_same_path_witness :
    containsSeq ( ".csv".toList) ( "data.txt".toList) = false ∧
    resolvedOutput none ( "data.txt".toList) = ( "data.txt".toList) :=
  ⟨by decide, C10_no_csv_same_path ( "data.txt".toList) (by decide)⟩

/-- C5 counterexample: the code computes the default output path with
`str.replace`, which rewrites every `.csv` occurrence, not only a trailing
suffix.  On `a.csv.csv` it produces `a_masked.csv_masked.csv`, not the
`a.csv_masked.csv` the claim (replace only the trailing suffix, leave the
rest unchanged) would give. -/
theorem C5_default_output_counterexample :
    defaultOutput ( "a.csv.csv".toList) = ( "a_masked.csv_masked.csv".toList) ∧
    ¬ defaultOutput ( "a.csv.csv".toList) = ( "a.csv_masked.csv".toList) :=
  ⟨by decide, by decide⟩

/-- C5 (amended): the default output path is the input path with every
occurrence of `.csv` replaced by `_masked.csv`; in particular, whenever the
only occurrence of `.csv` is a trailing suffix, the result is the input
with that suffix replaced, the rest of the path unchanged. -/
theorem C5_default_output_replace_all (u : List Char)
    (h : containsSeq ['.', 'c', 's', 'v'] u = false) :
    resolvedOutput none (u ++ ( ".csv".toList)) = u ++ ( "_masked.csv".toList) := by
  have hcsv : ( ".csv".toList) = ['.', 'c', 's', 'v'] := rfl
  unfold resolvedOutput defaultOutput
  rw [hcsv]
  exact strReplace_suffix_csv u _ h

/-- Witness for the amended C5 at the stem `data`. -/
theorem C5_default_output_replace_all_witness :
    containsSeq ['.', 'c', 's', 'v'] ( "data".toList) = false ∧
    resolvedOutput none ( "data".toList ++ ( ".csv".toList)) =
      ( "data".toList ++ ( "_masked.csv".toList)) :=
  ⟨by decide, C5_default_output_replace_all ( "data".toList) (by decide)⟩

/-- C8: when the target column name is not in the header, the run writes
the header row only (no data rows) and terminates with exit code 1. -/
theorem C8_missing_column_fatal (env : FakeEnv) (header : List (List Char))
    (rows : List (List (List Char))) (name : List Char) (locale : String)
    (h : name ∉ header) :
    run_pipeline env (header :: rows) name locale =
      { output := [header], exitCode := 1 } := by
  simp only [run_pipeline]
  rw [indexOfCell_eq_none name header h]

/-- Witness for C8: a two-row file whose header lacks the column `phone`. -/
theorem C8_missing_column_fatal_witness :
    ( "phone".toList) ∉ [( "id".toList), ( "age".toList)] ∧
    run_pipeline envAllOk [[( "id".toList), ( "age".toList)], [( "1".toList), ( "44".toList)]]
      ( "phone".toList) "en_US" =
      { output := [[( "id".toList), ( "age".toList)]], exitCode := 1 } :=
  ⟨by decide, C8_missing_column_fatal envAllOk [( "id".toList), ( "age".toList)]
    [[( "1".toList), ( "44".toList)]] ( "phone".toList) "en_US" (by decide)⟩

/-- C2 counterexample: `fake = Faker(locale)` runs before the `try` block,
so with a locale the Faker constructor rejects the function raises instead
of returning the original value — the claim's "for every locale string,
never raises" fails. -/
theorem C2_never_raises_counterexample :
    permute_data_format envNoFaker ( "2023-05-01".toList) "date" "xx_XX" =
      Except.error PyError.attrError := rfl

/-- C2 (amended): for every locale the Faker constructor accepts,
`permute_data_format` never raises; any error inside the fabrication body
is caught and the original value is returned unchanged — in particular a
date string that fails to parse comes back unchanged — and the result is
always a present string value, never absent. -/
theorem C2_fabricator_fail_open (env : FakeEnv) (data : List Char) (tag : String)
    (locale : String) (h : env.fakerOk locale = true) :
    (∃ v, permute_data_format env data tag locale = Except.ok v) ∧
    (∀ e, permute_try env data tag = Except.error e →
      permute_data_format env data tag locale = Except.ok data) ∧
    (tag = "date" → env.dateParseOk data = false →
      permute_data_format env data tag locale = Except.ok data) := by
  refine ⟨?_, ?_, ?_⟩
  · cases htry : permute_try env data tag with
    | ok v => exact ⟨v, by simp [permute_data_format, h, htry]⟩
    | error e => exact ⟨data, by simp [permute_data_format, h, htry]⟩
  · intro e he
    simp [permute_data_format, h, he]
  · intro htag hparse
    subst htag
    have htry : permute_try env data "date" = Except.ok data := by
      simp [permute_try, hparse]
    simp [permute_data_format, h, htry]

/-- Witness for the amended C2: with every external call succeeding except
the `float` conversion, a currency-tagged value that fails to parse is
returned unchanged, and a date-tagged value whose parse fails is returned
unchanged. -/
theorem C2_fabricator_fail_open_witness :
    envNoFloat.fakerOk "en_US" = true ∧
    ((∃ v, permute_data_format envNoFloat ( "$x".toList) "currency" "en_US" = Except.ok v) ∧
    (∀ e, permute_try envNoFloat ( "$x".toList) "currency" = Except.error e →
      permute_data_format envNoFloat ( "$x".toList) "currency" "en_US" =
        Except.ok ( "$x".toList)) ∧
    ("currency" = "date" → envNoFloat.dateParseOk ( "$x".toList) = false →
      permute_data_format envNoFloat ( "$x".toList) "currency" "en_US" =
        Except.ok ( "$x".toList))) :=
  ⟨rfl, C2_fabricator_fail_open envNoFloat ( "$x".toList) "currency" "en_US" rfl⟩

/-- C6: on a currency-tagged value whose magnitude parses after stripping
`$` and `,`, the fabricator discards the parsed amount and returns the
string `$a.b` built from the two random numbers — independent of the
original value (any two parsing inputs give the same result). -/
theorem C6_currency_fabrication (env : FakeEnv) (data : List Char) (locale : String)
    (hf : env.fakerOk locale = true)
    (hp : env.floatOk (strReplace (strReplace data ( "$".toList) []) ( ",".toList) []) = true) :
    permute_data_format env data "currency" locale =
      Except.ok (currencyFormat (env.randomNumber 3) (env.randomNumber 2)) ∧
    (∀ data2 : List Char,
      env.floatOk (strReplace (strReplace data2 ( "$".toList) []) ( ",".toList) []) = true →
      permute_data_format env data2 "currency" locale =
        permute_data_format env data "currency" locale) := by
  have key : ∀ d : List Char,
      env.floatOk (strReplace (strReplace d ( "$".toList) []) ( ",".toList) []) = true →
      permute_data_format env d "currency" locale =
        Except.ok (currencyFormat (env.randomNumber 3) (env.randomNumber 2)) := by
    intro d hd
    have hd2 : env.floatOk (strReplace (strReplace d ['$'] []) [','] []) = true := hd
    have htry : permute_try env d "currency" =
        Except.ok (currencyFormat (env.randomNumber 3) (env.randomNumber 2)) := by
      simp [permute_try, hd2]
    simp [permute_data_format, hf, htry]
  exact ⟨key data hp, fun d2 h2 => by rw [key d2 h2, key data hp]⟩

/-- Witness for C6 at `$1,234.56` and `$9`, with an oracle whose random
numbers are both 7: both inputs fabricate to `$7.7`. -/
theorem C6_currency_fabrication_witness :
    envAllOk.fakerOk "en_US" = true ∧
    envAllOk.floatOk (strReplace (strReplace ( "$1,234.56".toList) ( "$".toList) [])
      ( ",".toList) []) = true ∧
    (permute_data_format envAllOk ( "$1,234.56".toList) "currency" "en_US" =
      Except.ok (currencyFormat (envAllOk.randomNumber 3) (envAllOk.randomNumber 2)) ∧
    (∀ data2 : List Char,
      envAllOk.floatOk (strReplace (strReplace data2 ( "$".toList) []) ( ",".toList) []) = true →
      permute_data_format envAllOk data2 "currency" "en_US" =
        permute_data_format envAllOk ( "$1,234.56".toList) "currency" "en_US")) :=
  ⟨rfl, rfl, C6_currency_fabrication envAllOk ( "$1,234.56".toList) "en_US" rfl rfl⟩

theorem replicate_a_alpha (n : Nat) : (List.replicate n 'a').all Char.isAlpha = true := by
  induction n with
  | zero => rfl
  | succ m ih => simp only [List.replicate, List.all_cons, ih, Bool.and_true]; decide

/-- C7: on an unknown-tagged value, the fabricator returns the random
letter string of the oracle at the original's length; under the Faker
contract for `pystr` (length n, letters only) the result has exactly the
original's length, and an empty original yields the empty string. -/
theorem C7_unknown_length_preserved (env : FakeEnv) (x : List Char) (locale : String)
    (hf : env.fakerOk locale = true)
    (hlen : ∀ n, (env.pystr n).length = n)
    (halpha : ∀ n, (env.pystr n).all Char.isAlpha = true) :
    ∃ v, permute_data_format env x "unknown" locale = Except.ok v ∧
      v.length = x.length ∧ v.all Char.isAlpha = true ∧ (x = [] → v = []) := by
  refine ⟨env.pystr x.length, ?_, hlen x.length, halpha x.length, ?_⟩
  · have htry : permute_try env x "unknown" = Except.ok (env.pystr x.length) := by
      simp [permute_try]
    simp [permute_data_format, hf, htry]
  · intro hx
    subst hx
    exact List.length_eq_zero.mp (hlen 0)

/-- Witness for C7 at the six-character value `hello!`. -/
theorem C7_unknown_length_preserved_witness :
    envAllOk.fakerOk "en_US" = true ∧
    ∃ v, permute_data_format envAllOk ( "hello!".toList) "unknown" "en_US" = Except.ok v ∧
      v.length = ( "hello!".toList).length ∧ v.all Char.isAlpha = true ∧
      (( "hello!".toList) = [] → v = []) :=
  ⟨rfl, C7_unknown_length_preserved envAllOk ( "hello!".toList) "en_US" rfl
    (fun n => List.length_replicate n 'a') (fun n => replicate_a_alpha n)⟩

theorem processRow_eq_of_none (env : FakeEnv) (idx : Nat) (locale : String)
    (row : List (List Char)) (h : row.get? idx = none) :
    processRow env idx locale row = row := by
  have hx : row[idx]? = none := by rw [← List.get?_eq_getElem?]; exact h
  simp [processRow, hx]

theorem processRow_eq_of_error (env : FakeEnv) (idx : Nat) (locale : String)
    (row : List (List Char)) (original : List Char) (e : PyError)
    (h : row.get? idx = some original)
    (hp : permute_data_format env original (detect_data_type (PyVal.str original)) locale
      = Except.error e) :
    processRow env idx locale row = row := by
  have hx : row[idx]? = some original := by rw [← List.get?_eq_getElem?]; exact h
  simp [processRow, hx, hp]

theorem processRow_eq_of_ok (env : FakeEnv) (idx : Nat) (locale : String)
    (row : List (List Char)) (original masked : List Char)
    (h : row.get? idx = some original)
    (hp : permute_data_format env original (detect_data_type (PyVal.str original)) locale
      = Except.ok masked) :
    processRow env idx locale row = row.set idx masked := by
  have hx : row[idx]? = some original := by rw [← List.get?_eq_getElem?]; exact h
  simp [processRow, hx, hp]

/-- C4: a per-row failure never escapes the row — when the fabricator
raises on the row's target cell, the row is written unchanged (the cell is
only overwritten after the fabricator returns, so the pre-mutation row is
what gets written); a row too short for the target index is also written
unchanged; and the run still processes every row and exits 0. -/
theorem C4_row_error_recovery (env : FakeEnv) (idx : Nat) (locale : String)
    (row : List (List Char)) (original : List Char) (e : PyError)
    (header : List (List Char)) (rows : List (List (List Char))) (name : List Char)
    (h1 : row.get? idx = some original)
    (h2 : permute_data_format env original (detect_data_type (PyVal.str original)) locale
      = Except.error e)
    (hidx : indexOfCell name header = some idx) :
    processRow env idx locale row = row ∧
    (∀ r2 : List (List Char), r2.get? idx = none → processRow env idx locale r2 = r2) ∧
    run_pipeline env (header :: rows) name locale =
      { output := header :: rows.map (processRow env idx locale), exitCode := 0 } := by
  refine ⟨?_, ?_, ?_⟩
  · exact processRow_eq_of_error env idx locale row original e h1 h2
  · intro r2 hr2
    exact processRow_eq_of_none env idx locale r2 hr2
  · simp [run_pipeline, hidx]

/-- Witness for C4: with the failing-Faker oracle every fabrication raises,
and the one-column row `[5]` passes through unchanged while the run exits
0 with both rows written. -/
theorem C4_row_error_recovery_witness :
    processRow envNoFaker 0 "en_US" [( "5".toList)] = [( "5".toList)] ∧
    (∀ r2 : List (List Char), r2.get? 0 = none → processRow envNoFaker 0 "en_US" r2 = r2) ∧
    run_pipeline envNoFaker [[( "v".toList)], [( "5".toList)]] ( "v".toList) "en_US" =
      { output := [( "v".toList)] :: [[( "5".toList)]].map (processRow envNoFaker 0 "en_US"),
        exitCode := 0 } :=
  C4_row_error_recovery envNoFaker 0 "en_US" [( "5".toList)] ( "5".toList)
    PyError.attrError [( "v".toList)] [[( "5".toList)]] ( "v".toList) rfl rfl rfl

/-- C1: whenever the run succeeds (the target column resolves to index
`idx`), the output is the unchanged header followed by the processed data
rows in order — same row count — and processing a row preserves its length
and leaves every cell at an index other than `idx` untouched. -/
theorem C1_pipeline_frame (env : FakeEnv) (header : List (List Char))
    (rows : List (List (List Char))) (name : List Char) (locale : String) (idx : Nat)
    (hidx : indexOfCell name header = some idx) :
    run_pipeline env (header :: rows) name locale =
      { output := header :: rows.map (processRow env idx locale), exitCode := 0 } ∧
    (run_pipeline env (header :: rows) name locale).output.length =
      (header :: rows).length ∧
    (∀ row : List (List Char), (processRow env idx locale row).length = row.length) ∧
    (∀ row : List (List Char), ∀ j : Nat, ¬ j = idx →
      (processRow env idx locale row).get? j = row.get? j) := by
  have hrun : run_pipeline env (header :: rows) name locale =
      { output := header :: rows.map (processRow env idx locale), exitCode := 0 } := by
    simp [run_pipeline, hidx]
  refine ⟨hrun, by rw [hrun]; simp, ?_, ?_⟩
  · intro row
    cases hg : row.get? idx with
    | none => rw [processRow_eq_of_none env idx locale row hg]
    | some original =>
      cases hp : permute_data_format env original
          (detect_data_type (PyVal.str original)) locale with
      | ok masked =>
        rw [processRow_eq_of_ok env idx locale row original masked hg hp]
        simp [List.length_set]
      | error e => rw [processRow_eq_of_error env idx locale row original e hg hp]
  · intro row j hj
    cases hg : row.get? idx with
    | none => rw [processRow_eq_of_none env idx locale row hg]
    | some original =>
      cases hp : permute_data_format env original
          (detect_data_type (PyVal.str original)) locale with
      | ok masked =>
        rw [processRow_eq_of_ok env idx locale row original masked hg hp]
        exact listSet_get? row idx j masked (fun hh => hj hh.symm)
      | error e => rw [processRow_eq_of_error env idx locale row original e hg hp]

/-- Witness for C1: the spec's end-to-end example `id,phone / 1,555-123-4567`
with target column `phone`, which resolves to index 1. -/
theorem C1_pipeline_frame_witness :
    run_pipeline envAllOk [[( "id".toList), ( "phone".toList)],
        [( "1".toList), ( "555-123-4567".toList)]] ( "phone".toList) "en_US" =
      { output := [( "id".toList), ( "phone".toList)] ::
          [[( "1".toList), ( "555-123-4567".toList)]].map (processRow envAllOk 1 "en_US"),
        exitCode := 0 } ∧
    (run_pipeline envAllOk [[( "id".toList), ( "phone".toList)],
        [( "1".toList), ( "555-123-4567".toList)]] ( "phone".toList) "en_US").output.length =
      ([[( "id".toList), ( "phone".toList)], [( "1".toList), ( "555-123-4567".toList)]]).length ∧
    (∀ row : List (List Char), (processRow envAllOk 1 "en_US" row).length = row.length) ∧
    (∀ row : List (List Char), ∀ j : Nat, ¬ j = 1 →
      (processRow envAllOk 1 "en_US" row).get? j = row.get? j) :=
  C1_pipeline_frame envAllOk [( "id".toList), ( "phone".toList)]
    [[( "1".toList), ( "555-123-4567".toList)]] ( "phone".toList) "en_US" 1 rfl

/-- C3: the detector always returns one of exactly four tags (totality in
Lean is the "never raises" of the Python function); non-string and
empty-after-trim inputs give `unknown`; the spec's five concrete examples
classify as stated; a match of any of the four patterns survives appending
trailing garbage (prefix semantics of `re.match`); and the four prefix
tests are applied in order with first match winning. -/
theorem C3_detector_contract :
    (∀ v : PyVal, detect_data_type v = "date" ∨ detect_data_type v = "currency" ∨
      detect_data_type v = "telephone" ∨ detect_data_type v = "unknown") ∧
    detect_data_type PyVal.nonstr = "unknown" ∧
    detect_data_type (PyVal.str []) = "unknown" ∧
    detect_data_type (PyVal.str ( "2023-05-01...".toList)) = "date" ∧
    detect_data_type (PyVal.str ( "05/01/2023".toList)) = "date" ∧
    detect_data_type (PyVal.str ( "$1,234.56".toList)) = "currency" ∧
    detect_data_type (PyVal.str ( "+1 (555) 123-4567".toList)) = "telephone" ∧
    (∀ s t : List Char, reMatch dateDashRE s = true → reMatch dateDashRE (s ++ t) = true) ∧
    (∀ s t : List Char, reMatch dateSlashRE s = true → reMatch dateSlashRE (s ++ t) = true) ∧
    (∀ s t : List Char, reMatch currencyRE s = true → reMatch currencyRE (s ++ t) = true) ∧
    (∀ s t : List Char, reMatch phoneRE s = true → reMatch phoneRE (s ++ t) = true) ∧
    (∀ s : List Char, reMatch dateDashRE (pyStrip s) = true →
      detect_data_type (PyVal.str s) = "date") ∧
    (∀ s : List Char, reMatch dateDashRE (pyStrip s) = false →
      reMatch dateSlashRE (pyStrip s) = true → detect_data_type (PyVal.str s) = "date") ∧
    (∀ s : List Char, reMatch dateDashRE (pyStrip s) = false →
      reMatch dateSlashRE (pyStrip s) = false → reMatch currencyRE (pyStrip s) = true →
      detect_data_type (PyVal.str s) = "currency") ∧
    (∀ s : List Char, reMatch dateDashRE (pyStrip s) = false →
      reMatch dateSlashRE (pyStrip s) = false → reMatch currencyRE (pyStrip s) = false →
      reMatch phoneRE (pyStrip s) = true → detect_data_type (PyVal.str s) = "telephone") ∧
    (∀ s : List Char, reMatch dateDashRE (pyStrip s) = false →
      reMatch dateSlashRE (pyStrip s) = false → reMatch currencyRE (pyStrip s) = false →
      reMatch phoneRE (pyStrip s) = false → detect_data_type (PyVal.str s) = "unknown") := by
  refine ⟨?_, rfl, by decide, by decide, by decide, by decide, by decide,
    fun s t h => reMatch_append dateDashRE s t h,
    fun s t h => reMatch_append dateSlashRE s t h,
    fun s t h => reMatch_append currencyRE s t h,
    fun s t h => reMatch_append phoneRE s t h,
    ?_, ?_, ?_, ?_, ?_⟩
  · intro v
    cases v with
    | nonstr => simp [detect_data_type]
    | str s =>
      simp only [detect_data_type]
      split_ifs <;> simp
  · intro s h
    have hne : (pyStrip s).isEmpty = false := by
      cases hps : pyStrip s with
      | nil => rw [hps] at h; exact absurd h (by decide)
      | cons c r => rfl
    simp [detect_data_type, hne, h]
  · intro s h1 h2
    have hne : (pyStrip s).isEmpty = false := by
      cases hps : pyStrip s with
      | nil => rw [hps] at h2; exact absurd h2 (by decide)
      | cons c r => rfl
    simp [detect_data_type, hne, h1, h2]
  · intro s h1 h2 h3
    have hne : (pyStrip s).isEmpty = false := by
      cases hps : pyStrip s with
      | nil => rw [hps] at h3; exact absurd h3 (by decide)
      | cons c r => rfl
    simp [detect_data_type, hne, h1, h2, h3]
  · intro s h1 h2 h3 h4
    have hne : (pyStrip s).isEmpty = false := by
      cases hps : pyStrip s with
      | nil => rw [hps] at h4; exact absurd h4 (by decide)
      | cons c r => rfl
    simp [detect_data_type, hne, h1, h2, h3, h4]
  · intro s h1 h2 h3 h4
    cases hps : (pyStrip s).isEmpty with
    | true => simp [detect_data_type, hps]
    | false => simp [detect_data_type, hps, h1, h2, h3, h4]

/-- Witness for C3: the prefix-match monotonicity applied at a concrete
matching prefix and concrete trailing garbage. -/
theorem C3_detector_contract_witness :
    reMatch dateDashRE (( "2023-05-01".toList) ++ ( "junk".toList)) = true :=
  C3_detector_contract.2.2.2.2.2.2.2.1 ( "2023-05-01".toList) ( "junk".toList) (by decide)
